import Mathlib

/-!
Verification of the kinematics and trajectory-solving engine of a 6-axis
robot-arm simulator.

The numeric carrier is an abstract linearly ordered field `F` (instantiated
with `ℚ` in concrete evaluations).  The trigonometric functions and the
three.js matrix-decomposition routines — which the source code takes from the
three.js library rather than defining itself — are supplied through a
`ThreeModel` parameter record; everything the repository itself computes
(matrix products, the DH chain, the Jacobian-transpose update, the parsers,
the playback tick) is embedded concretely.
-/

namespace Robot

/-- Three-component vector, mirroring three.js `Vector3`. -/
@[ext]
structure Vec3 (F : Type) where
  x : F
  y : F
  z : F
deriving DecidableEq

/-- Quaternion with three.js field order `(x, y, z, w)`. -/
@[ext]
structure Quat (F : Type) where
  x : F
  y : F
  z : F
  w : F
deriving DecidableEq

/-- Homogeneous 4x4 matrix in mathematical row-major notation; `m i j` is row
`i`, column `j`.  three.js stores the same matrix column-major in `elements`. -/
@[ext]
structure Mat4 (F : Type) where
  m11 : F
  m12 : F
  m13 : F
  m14 : F
  m21 : F
  m22 : F
  m23 : F
  m24 : F
  m31 : F
  m32 : F
  m33 : F
  m34 : F
  m41 : F
  m42 : F
  m43 : F
  m44 : F
deriving DecidableEq

variable {F : Type} [LinearOrderedField F]

/-- Vector subtraction (three.js `Vector3.subVectors`). -/
def Vec3.sub (a b : Vec3 F) : Vec3 F :=
  ⟨a.x - b.x, a.y - b.y, a.z - b.z⟩

/-- Scalar multiple of a vector (three.js `Vector3.multiplyScalar`). -/
def Vec3.smul (s : F) (a : Vec3 F) : Vec3 F :=
  ⟨s * a.x, s * a.y, s * a.z⟩

/-- Dot product (three.js `Vector3.dot`). -/
def Vec3.dot (a b : Vec3 F) : F :=
  a.x * b.x + a.y * b.y + a.z * b.z

/-- Cross product (three.js `Vector3.crossVectors`). -/
def Vec3.cross (a b : Vec3 F) : Vec3 F :=
  ⟨a.y * b.z - a.z * b.y, a.z * b.x - a.x * b.z, a.x * b.y - a.y * b.x⟩

/-- Squared Euclidean length (three.js `Vector3.lengthSq`).  Comparisons
`v.length() < t` from the source (with `t > 0`) are embedded as
`v.lengthSq < t^2`, which is equivalent and avoids square roots. -/
def Vec3.lengthSq (a : Vec3 F) : F :=
  a.x * a.x + a.y * a.y + a.z * a.z

/-- Linear interpolation (three.js `Vector3.lerpVectors`):
`a + (b - a) * t`. -/
def Vec3.lerpV (a b : Vec3 F) (t : F) : Vec3 F :=
  ⟨a.x + (b.x - a.x) * t, a.y + (b.y - a.y) * t, a.z + (b.z - a.z) * t⟩

/-- Quaternion product (three.js `Quaternion.multiply`, Hamilton product). -/
def Quat.qmul (a b : Quat F) : Quat F :=
  ⟨a.x * b.w + a.w * b.x + a.y * b.z - a.z * b.y,
   a.y * b.w + a.w * b.y + a.z * b.x - a.x * b.z,
   a.z * b.w + a.w * b.z + a.x * b.y - a.y * b.x,
   a.w * b.w - a.x * b.x - a.y * b.y - a.z * b.z⟩

/-- Quaternion inverse as three.js implements it: `Quaternion.invert` is the
conjugate (three.js assumes unit quaternions). -/
def Quat.qinv (a : Quat F) : Quat F :=
  ⟨-a.x, -a.y, -a.z, a.w⟩

/-- Rotation of a vector by a quaternion (three.js
`Vector3.applyQuaternion`): `v + w*t + qv × t` with `t = 2 (qv × v)`. -/
def Quat.applyTo (q : Quat F) (v : Vec3 F) : Vec3 F :=
  let qv : Vec3 F := ⟨q.x, q.y, q.z⟩
  let t := Vec3.smul 2 (Vec3.cross qv v)
  ⟨v.x + q.w * t.x + (qv.y * t.z - qv.z * t.y),
   v.y + q.w * t.y + (qv.z * t.x - qv.x * t.z),
   v.z + q.w * t.z + (qv.x * t.y - qv.y * t.x)⟩

/-- Matrix product (three.js `Matrix4.multiply`: `this = this * m`). -/
def Mat4.mul (A B : Mat4 F) : Mat4 F where
  m11 := A.m11 * B.m11 + A.m12 * B.m21 + A.m13 * B.m31 + A.m14 * B.m41
  m12 := A.m11 * B.m12 + A.m12 * B.m22 + A.m13 * B.m32 + A.m14 * B.m42
  m13 := A.m11 * B.m13 + A.m12 * B.m23 + A.m13 * B.m33 + A.m14 * B.m43
  m14 := A.m11 * B.m14 + A.m12 * B.m24 + A.m13 * B.m34 + A.m14 * B.m44
  m21 := A.m21 * B.m11 + A.m22 * B.m21 + A.m23 * B.m31 + A.m24 * B.m41
  m22 := A.m21 * B.m12 + A.m22 * B.m22 + A.m23 * B.m32 + A.m24 * B.m42
  m23 := A.m21 * B.m13 + A.m22 * B.m23 + A.m23 * B.m33 + A.m24 * B.m43
  m24 := A.m21 * B.m14 + A.m22 * B.m24 + A.m23 * B.m34 + A.m24 * B.m44
  m31 := A.m31 * B.m11 + A.m32 * B.m21 + A.m33 * B.m31 + A.m34 * B.m41
  m32 := A.m31 * B.m12 + A.m32 * B.m22 + A.m33 * B.m32 + A.m34 * B.m42
  m33 := A.m31 * B.m13 + A.m32 * B.m23 + A.m33 * B.m33 + A.m34 * B.m43
  m34 := A.m31 * B.m14 + A.m32 * B.m24 + A.m33 * B.m34 + A.m34 * B.m44
  m41 := A.m41 * B.m11 + A.m42 * B.m21 + A.m43 * B.m31 + A.m44 * B.m41
  m42 := A.m41 * B.m12 + A.m42 * B.m22 + A.m43 * B.m32 + A.m44 * B.m42
  m43 := A.m41 * B.m13 + A.m42 * B.m23 + A.m43 * B.m33 + A.m44 * B.m43
  m44 := A.m41 * B.m14 + A.m42 * B.m24 + A.m43 * B.m34 + A.m44 * B.m44

/-- Identity matrix (three.js `new Matrix4()`). -/
def Mat4.id : Mat4 F :=
  ⟨1, 0, 0, 0,
   0, 1, 0, 0,
   0, 0, 1, 0,
   0, 0, 0, 1⟩

/-- Translation matrix (three.js `Matrix4.makeTranslation`). -/
def Mat4.makeTranslation (x y z : F) : Mat4 F :=
  ⟨1, 0, 0, x,
   0, 1, 0, y,
   0, 0, 1, z,
   0, 0, 0, 1⟩

/-- Translation column of a matrix (three.js
`Vector3.setFromMatrixPosition`, and the position part of
`Matrix4.decompose`, both of which read elements 12, 13, 14). -/
def Mat4.translationOf (M : Mat4 F) : Vec3 F :=
  ⟨M.m14, M.m24, M.m34⟩

/-- Rotation axis selector used by `applyTransforms` in the source. -/
inductive Axis : Type
  | x
  | y
  | z
deriving DecidableEq

/-- External primitives the source takes from three.js: degree trigonometry
(the source always computes `cos/sin (deg * π/180)`; `cosDeg`/`sinDeg` model
that composite), the quaternion part of `Matrix4.decompose`, quaternion
extraction `Quaternion.setFromRotationMatrix`, vector normalisation
`Vector3.normalize`, and the Euler conversions.  All repository-level
computation is embedded concretely on top of these. -/
structure ThreeModel (F : Type) where
  cosDeg : F → F
  sinDeg : F → F
  decomposeQuat : Mat4 F → Quat F
  rotQuat : Mat4 F → Quat F
  normVec : Vec3 F → Vec3 F
  eulerOfQuat : Quat F → Vec3 F
  quatOfEuler : Vec3 F → Quat F

/-- Rotation about X by an angle in degrees (three.js
`Matrix4.makeRotationX`). -/
def Mat4.rotX (tm : ThreeModel F) (deg : F) : Mat4 F :=
  let c := tm.cosDeg deg
  let s := tm.sinDeg deg
  ⟨1, 0, 0, 0,
   0, c, -s, 0,
   0, s, c, 0,
   0, 0, 0, 1⟩

/-- Rotation about Y by an angle in degrees (three.js
`Matrix4.makeRotationY`). -/
def Mat4.rotY (tm : ThreeModel F) (deg : F) : Mat4 F :=
  let c := tm.cosDeg deg
  let s := tm.sinDeg deg
  ⟨c, 0, s, 0,
   0, 1, 0, 0,
   -s, 0, c, 0,
   0, 0, 0, 1⟩

/-- Rotation about Z by an angle in degrees (three.js
`Matrix4.makeRotationZ`). -/
def Mat4.rotZ (tm : ThreeModel F) (deg : F) : Mat4 F :=
  let c := tm.cosDeg deg
  let s := tm.sinDeg deg
  ⟨c, -s, 0, 0,
   s, c, 0, 0,
   0, 0, 1, 0,
   0, 0, 0, 1⟩

/-- Axis-dispatched rotation matrix, as built inside `applyTransforms`. -/
def Mat4.makeRotation (tm : ThreeModel F) (ax : Axis) (deg : F) : Mat4 F :=
  match ax with
  | Axis.x => Mat4.rotX tm deg
  | Axis.y => Mat4.rotY tm deg
  | Axis.z => Mat4.rotZ tm deg

/-- `KinematicsService.applyTransforms`: post-multiply by a translation, then
by a rotation about the given local axis. -/
def applyTransforms (tm : ThreeModel F) (mat : Mat4 F) (trans : Vec3 F)
    (angleDeg : F) (ax : Axis) : Mat4 F :=
  (mat.mul (Mat4.makeTranslation trans.x trans.y trans.z)).mul
    (Mat4.makeRotation tm ax angleDeg)

/-- `DHParameterConfig` from the source: four parallel 7-entry parameter
tables. -/
structure DHParameterConfig (F : Type) where
  d : Fin 7 → F
  a : Fin 7 → F
  alpha : Fin 7 → F
  offsets : Fin 7 → F

/-- The commanded-angle table `jVars = [0, ...jointAnglesDeg]`: stage 0 gets
a fixed 0, stage `i+1` gets joint angle `i`. -/
def jVars (θ : Fin 6 → F) : Fin 7 → F :=
  fun i =>
    match i with
    | ⟨0, _⟩ => 0
    | ⟨n + 1, h⟩ => θ ⟨n, by omega⟩

/-- `KinematicsService.forwardKinematicsChain`, embedded stage by stage
exactly as the source writes it (unrolled links, the joint-4 local-X axis,
the fixed corrective rotations after links 1, 3, 4, 5, and the constant
tool-flange offset). -/
def forwardKinematicsChain (tm : ThreeModel F) (cfg : DHParameterConfig F)
    (θ : Fin 6 → F) : List (Mat4 F) :=
  let jv := jVars θ
  let m0 := applyTransforms tm
    (applyTransforms tm Mat4.id ⟨0, 0, cfg.d 0⟩ (jv 0 + cfg.offsets 0) Axis.z)
    ⟨cfg.a 0, 0, 0⟩ (cfg.alpha 0) Axis.x
  let m1 := applyTransforms tm
    (applyTransforms tm m0 ⟨0, 0, cfg.d 1⟩ (jv 1 + cfg.offsets 1) Axis.z)
    ⟨cfg.a 1, 0, 0⟩ (cfg.alpha 1) Axis.x
  let m1adj := m1.mul (Mat4.rotX tm 90)
  let m2 := applyTransforms tm
    (applyTransforms tm m1adj ⟨0, 0, cfg.d 2⟩ (jv 2 + cfg.offsets 2) Axis.z)
    ⟨cfg.a 2, 0, 0⟩ (cfg.alpha 2) Axis.x
  let m3 := applyTransforms tm
    (applyTransforms tm m2 ⟨0, 0, cfg.d 3⟩ (jv 3 + cfg.offsets 3) Axis.z)
    ⟨cfg.a 3, 0, 0⟩ (cfg.alpha 3) Axis.x
  let m3adj := (m3.mul (Mat4.rotY tm 90)).mul (Mat4.rotZ tm (-90))
  let m4 := applyTransforms tm
    (applyTransforms tm m3adj ⟨0, 0, cfg.d 4⟩ (jv 4 + cfg.offsets 4) Axis.x)
    ⟨cfg.a 4, 0, 0⟩ (cfg.alpha 4) Axis.x
  let m4adj := m4.mul (Mat4.rotX tm (-90))
  let m5 := applyTransforms tm
    (applyTransforms tm m4adj ⟨0, 0, cfg.d 5⟩ (jv 5 + cfg.offsets 5) Axis.z)
    ⟨cfg.a 5, 0, 0⟩ (cfg.alpha 5) Axis.x
  let m5adj := (m5.mul (Mat4.rotX tm (-90))).mul (Mat4.rotY tm 90)
  let m6 := applyTransforms tm
    (applyTransforms tm m5adj ⟨0, 0, cfg.d 6⟩ (jv 6 + cfg.offsets 6) Axis.z)
    ⟨cfg.a 6, 0, 0⟩ (cfg.alpha 6) Axis.x
  let mTool := (m6.mul (Mat4.makeTranslation 0 0 (38663 / 100))).mul
    (Mat4.makeTranslation (-124) 0 0)
  [m0, m1, m2, m3, m4, m5, m6, mTool]

/-- One stage of the reference algorithm from the specification: translate by
`(0,0,d i)`, rotate by the commanded angle plus offset about local Z — local X
at stage index 4 — translate by `(a i,0,0)`, rotate by `alpha i` about local
X. -/
def specStage (tm : ThreeModel F) (cfg : DHParameterConfig F)
    (jv : Fin 7 → F) (i : Fin 7) (running : Mat4 F) : Mat4 F :=
  applyTransforms tm
    (applyTransforms tm running ⟨0, 0, cfg.d i⟩ (jv i + cfg.offsets i)
      (if i.val = 4 then Axis.x else Axis.z))
    ⟨cfg.a i, 0, 0⟩ (cfg.alpha i) Axis.x

/-- Fixed corrective rotation the specification prescribes after stages 1, 3,
4 and 5, applied to the running transform before the next stage. -/
def specCorrection (tm : ThreeModel F) (i : Fin 7) (frame : Mat4 F) : Mat4 F :=
  if i.val = 1 then frame.mul (Mat4.rotX tm 90)
  else if i.val = 3 then (frame.mul (Mat4.rotY tm 90)).mul (Mat4.rotZ tm (-90))
  else if i.val = 4 then frame.mul (Mat4.rotX tm (-90))
  else if i.val = 5 then (frame.mul (Mat4.rotX tm (-90))).mul (Mat4.rotY tm 90)
  else frame

/-- Runs the reference algorithm over a list of stage indices, recording each
stage frame before the corrective rotation is applied to the running
transform. -/
def specGo (tm : ThreeModel F) (cfg : DHParameterConfig F) (jv : Fin 7 → F) :
    Mat4 F → List (Fin 7) → List (Mat4 F)
  | _, [] => []
  | running, i :: is =>
    let f := specStage tm cfg jv i running
    f :: specGo tm cfg jv (specCorrection tm i f) is

/-- The full reference chain of the specification: a running transform
starting at identity through stages 0..6, then one extra frame obtained from
frame 6 by a fixed translation along local Z followed by a negative fixed
translation along local X. -/
def forwardKinematicsSpec (tm : ThreeModel F) (cfg : DHParameterConfig F)
    (θ : Fin 6 → F) : List (Mat4 F) :=
  let frames := specGo tm cfg (jVars θ) Mat4.id [0, 1, 2, 3, 4, 5, 6]
  let f6 := frames.getLastD Mat4.id
  frames ++
    [(f6.mul (Mat4.makeTranslation 0 0 (38663 / 100))).mul
      (Mat4.makeTranslation (-124) 0 0)]

lemma specGo_nil (tm : ThreeModel F) (cfg : DHParameterConfig F)
    (jv : Fin 7 → F) (r : Mat4 F) : specGo tm cfg jv r [] = [] := rfl

lemma specGo_cons (tm : ThreeModel F) (cfg : DHParameterConfig F)
    (jv : Fin 7 → F) (r : Mat4 F) (i : Fin 7) (is : List (Fin 7)) :
    specGo tm cfg jv r (i :: is) =
      specStage tm cfg jv i r ::
        specGo tm cfg jv (specCorrection tm i (specStage tm cfg jv i r)) is := rfl

lemma specStage_0 (tm : ThreeModel F) (cfg : DHParameterConfig F)
    (jv : Fin 7 → F) (r : Mat4 F) :
    specStage tm cfg jv 0 r =
      applyTransforms tm
        (applyTransforms tm r ⟨0, 0, cfg.d 0⟩ (jv 0 + cfg.offsets 0) Axis.z)
        ⟨cfg.a 0, 0, 0⟩ (cfg.alpha 0) Axis.x := rfl

lemma specStage_1 (tm : ThreeModel F) (cfg : DHParameterConfig F)
    (jv : Fin 7 → F) (r : Mat4 F) :
    specStage tm cfg jv 1 r =
      applyTransforms tm
        (applyTransforms tm r ⟨0, 0, cfg.d 1⟩ (jv 1 + cfg.offsets 1) Axis.z)
        ⟨cfg.a 1, 0, 0⟩ (cfg.alpha 1) Axis.x := rfl

lemma specStage_2 (tm : ThreeModel F) (cfg : DHParameterConfig F)
    (jv : Fin 7 → F) (r : Mat4 F) :
    specStage tm cfg jv 2 r =
      applyTransforms tm
        (applyTransforms tm r ⟨0, 0, cfg.d 2⟩ (jv 2 + cfg.offsets 2) Axis.z)
        ⟨cfg.a 2, 0, 0⟩ (cfg.alpha 2) Axis.x := rfl

lemma specStage_3 (tm : ThreeModel F) (cfg : DHParameterConfig F)
    (jv : Fin 7 → F) (r : Mat4 F) :
    specStage tm cfg jv 3 r =
      applyTransforms tm
        (applyTransforms tm r ⟨0, 0, cfg.d 3⟩ (jv 3 + cfg.offsets 3) Axis.z)
        ⟨cfg.a 3, 0, 0⟩ (cfg.alpha 3) Axis.x := rfl

lemma specStage_4 (tm : ThreeModel F) (cfg : DHParameterConfig F)
    (jv : Fin 7 → F) (r : Mat4 F) :
    specStage tm cfg jv 4 r =
      applyTransforms tm
        (applyTransforms tm r ⟨0, 0, cfg.d 4⟩ (jv 4 + cfg.offsets 4) Axis.x)
        ⟨cfg.a 4, 0, 0⟩ (cfg.alpha 4) Axis.x := rfl

lemma specStage_5 (tm : ThreeModel F) (cfg : DHParameterConfig F)
    (jv : Fin 7 → F) (r : Mat4 F) :
    specStage tm cfg jv 5 r =
      applyTransforms tm
        (applyTransforms tm r ⟨0, 0, cfg.d 5⟩ (jv 5 + cfg.offsets 5) Axis.z)
        ⟨cfg.a 5, 0, 0⟩ (cfg.alpha 5) Axis.x := rfl

lemma specStage_6 (tm : ThreeModel F) (cfg : DHParameterConfig F)
    (jv : Fin 7 → F) (r : Mat4 F) :
    specStage tm cfg jv 6 r =
      applyTransforms tm
        (applyTransforms tm r ⟨0, 0, cfg.d 6⟩ (jv 6 + cfg.offsets 6) Axis.z)
        ⟨cfg.a 6, 0, 0⟩ (cfg.alpha 6) Axis.x := rfl

lemma specCorr_0 (tm : ThreeModel F) (f : Mat4 F) :
    specCorrection tm 0 f = f := rfl

lemma specCorr_1 (tm : ThreeModel F) (f : Mat4 F) :
    specCorrection tm 1 f = f.mul (Mat4.rotX tm 90) := rfl

lemma specCorr_2 (tm : ThreeModel F) (f : Mat4 F) :
    specCorrection tm 2 f = f := rfl

lemma specCorr_3 (tm : ThreeModel F) (f : Mat4 F) :
    specCorrection tm 3 f = (f.mul (Mat4.rotY tm 90)).mul (Mat4.rotZ tm (-90)) := rfl

lemma specCorr_4 (tm : ThreeModel F) (f : Mat4 F) :
    specCorrection tm 4 f = f.mul (Mat4.rotX tm (-90)) := rfl

lemma specCorr_5 (tm : ThreeModel F) (f : Mat4 F) :
    specCorrection tm 5 f = (f.mul (Mat4.rotX tm (-90))).mul (Mat4.rotY tm 90) := rfl

lemma specCorr_6 (tm : ThreeModel F) (f : Mat4 F) :
    specCorrection tm 6 f = f := rfl

/-- C1: for every 6-element joint-angle vector and every 7-element DH
parameter configuration, `forwardKinematicsChain` returns exactly the 8
frames produced by the reference algorithm of the specification (identity
start; per-stage translate `(0,0,d i)`, rotate commanded-plus-offset about
local Z except stage 4 about local X, translate `(a i,0,0)`, rotate `alpha i`
about local X; frames recorded before the fixed corrective rotations after
stages 1, 3, 4, 5; frame 7 is frame 6 translated by a fixed distance along
local Z and a negative fixed distance along local X). -/
theorem claim_C1_forward_chain_matches_reference {F : Type}
    [LinearOrderedField F] (tm : ThreeModel F) (cfg : DHParameterConfig F)
    (θ : Fin 6 → F) :
    forwardKinematicsChain tm cfg θ = forwardKinematicsSpec tm cfg θ ∧
      (forwardKinematicsChain tm cfg θ).length = 8 := by
  constructor
  · simp only [forwardKinematicsSpec, specGo_cons, specGo_nil, specCorr_0,
      specCorr_1, specCorr_2, specCorr_3, specCorr_4, specCorr_5, specCorr_6,
      specStage_0, specStage_1, specStage_2, specStage_3, specStage_4,
      specStage_5, specStage_6, List.getLastD_cons, List.getLastD_nil,
      List.cons_append, List.nil_append, forwardKinematicsChain]
  · rfl


/-! ### Inverse kinematics -/

/-- Last element of the chain, as the source's `chain[chain.length - 1]`. -/
def endOfChain (l : List (Mat4 F)) : Mat4 F :=
  l.getD (l.length - 1) Mat4.id

/-- End-effector frame of a joint configuration: the final entry of the
forward-kinematics chain (the source's `getEndEffectorPose(...).matrix`). -/
def fkEnd (tm : ThreeModel F) (cfg : DHParameterConfig F) (θ : Fin 6 → F) :
    Mat4 F :=
  endOfChain (forwardKinematicsChain tm cfg θ)

/-- Orientation-error vector of the IK loop: the vector part of
`targetQuat * currentQuat.invert()`, sign-flipped when the scalar part is
negative, then doubled. -/
def ikErrRot (tq cq : Quat F) : Vec3 F :=
  let errQuat := tq.qmul cq.qinv
  let v : Vec3 F := ⟨errQuat.x, errQuat.y, errQuat.z⟩
  Vec3.smul 2 (if errQuat.w < 0 then Vec3.smul (-1) v else v)

/-- Convergence test of the IK loop: position error below 0.1 mm and
orientation error below 0.001 rad (squared-length form of the source's
`errPos.length() < posThreshold && errRot.length() < rotThreshold`). -/
abbrev ikConverged (tm : ThreeModel F) (cfg : DHParameterConfig F)
    (tp : Vec3 F) (tq : Quat F) (angles : Fin 6 → F) : Prop :=
  let endM := endOfChain (forwardKinematicsChain tm cfg angles)
  Vec3.lengthSq (Vec3.sub tp (Mat4.translationOf endM)) < 1 / 100 ∧
    Vec3.lengthSq (ikErrRot tq (tm.decomposeQuat endM)) < 1 / 1000000

/-- One full Jacobian-transpose update sweep over the six joints (the inner
`for (let j = 0; j < 6; j++)` loop of `inverseKinematics`): every joint's
contribution is computed from the chain evaluated at the incoming angles, the
pivot frame is chain entry `j`, the joint axis is the pivot frame's local Z —
local X for joint index 3 — and the update is
`contribution * learningRate(0.5) * 0.00005`. -/
def ikStep (tm : ThreeModel F) (cfg : DHParameterConfig F) (tp : Vec3 F)
    (tq : Quat F) (angles : Fin 6 → F) : Fin 6 → F :=
  fun j =>
    let chain := forwardKinematicsChain tm cfg angles
    let endM := endOfChain chain
    let currentPos := Mat4.translationOf endM
    let errPos := Vec3.sub tp currentPos
    let errRot := ikErrRot tq (tm.decomposeQuat endM)
    let pivot := chain.getD j.val Mat4.id
    let pivotPos := Mat4.translationOf pivot
    let pivotRot := tm.rotQuat pivot
    let localAxis : Vec3 F := if j.val = 3 then ⟨1, 0, 0⟩ else ⟨0, 0, 1⟩
    let jointAxis := tm.normVec (pivotRot.applyTo localAxis)
    let pe := Vec3.sub currentPos pivotPos
    let contribution :=
      Vec3.dot (Vec3.cross jointAxis pe) errPos +
        Vec3.dot jointAxis errRot * 100
    angles j + contribution * (1 / 2) * (5 / 100000)

/-- The bounded IK iteration (`for (let iter = 0; iter < maxIterations; ...)`):
check convergence, stop if reached, otherwise update and continue with one
unit of fuel less. -/
def ikLoop (tm : ThreeModel F) (cfg : DHParameterConfig F) (tp : Vec3 F)
    (tq : Quat F) : Nat → (Fin 6 → F) → Fin 6 → F
  | 0, angles => angles
  | n + 1, angles =>
    if ikConverged tm cfg tp tq angles then angles
    else ikLoop tm cfg tp tq n (ikStep tm cfg tp tq angles)

lemma ikErrRot_self (q : Quat F) : ikErrRot q q = ⟨0, 0, 0⟩ := by
  simp only [ikErrRot, Quat.qmul, Quat.qinv]
  split_ifs <;> (ext <;> simp [Vec3.smul] <;> ring)

lemma ikConverged_self (tm : ThreeModel F) (cfg : DHParameterConfig F)
    (θ : Fin 6 → F) :
    ikConverged tm cfg (Mat4.translationOf (fkEnd tm cfg θ))
      (tm.decomposeQuat (fkEnd tm cfg θ)) θ := by
  unfold fkEnd
  constructor
  · simp [Vec3.sub, Vec3.lengthSq, sub_self]
  · rw [ikErrRot_self]
    simp [Vec3.lengthSq]

lemma ikLoop_converged (tm : ThreeModel F) (cfg : DHParameterConfig F)
    (tp : Vec3 F) (tq : Quat F) (n : ℕ) (a : Fin 6 → F)
    (h : ikConverged tm cfg tp tq a) :
    ikLoop tm cfg tp tq (n + 1) a = a := by
  simp only [ikLoop, if_pos h]

lemma periodic_shift (f : F → F) (hf : ∀ x : F, f (x + 360) = f x)
    (α : F) (k : ℤ) : f (α + 360 * (k : F)) = f α := by
  have hp : Function.Periodic f 360 := hf
  rw [mul_comm (360 : F) ((k : F))]
  exact (hp.int_mul k) α

lemma jVars_zero (ξ : Fin 6 → F) : jVars ξ 0 = 0 := rfl

lemma fk_period (tm : ThreeModel F) (cfg : DHParameterConfig F)
    (hc : ∀ x : F, tm.cosDeg (x + 360) = tm.cosDeg x)
    (hs : ∀ x : F, tm.sinDeg (x + 360) = tm.sinDeg x)
    (θ θ' : Fin 6 → F)
    (h : ∀ j : Fin 6, ∃ k : ℤ, θ' j = θ j + 360 * (k : F)) :
    forwardKinematicsChain tm cfg θ' = forwardKinematicsChain tm cfg θ := by
  have key : ∀ (f : F → F), (∀ x : F, f (x + 360) = f x) →
      ∀ (u v off : F), (∃ k : ℤ, u = v + 360 * (k : F)) →
      f (u + off) = f (v + off) := by
    rintro f hf u v off ⟨k, hk⟩
    rw [hk, show v + 360 * (k : F) + off = v + off + 360 * (k : F) from by ring]
    exact periodic_shift f hf (v + off) k
  have e1c : tm.cosDeg (jVars θ' 1 + cfg.offsets 1) =
      tm.cosDeg (jVars θ 1 + cfg.offsets 1) := key _ hc _ _ _ (h 0)
  have e1s : tm.sinDeg (jVars θ' 1 + cfg.offsets 1) =
      tm.sinDeg (jVars θ 1 + cfg.offsets 1) := key _ hs _ _ _ (h 0)
  have e2c : tm.cosDeg (jVars θ' 2 + cfg.offsets 2) =
      tm.cosDeg (jVars θ 2 + cfg.offsets 2) := key _ hc _ _ _ (h 1)
  have e2s : tm.sinDeg (jVars θ' 2 + cfg.offsets 2) =
      tm.sinDeg (jVars θ 2 + cfg.offsets 2) := key _ hs _ _ _ (h 1)
  have e3c : tm.cosDeg (jVars θ' 3 + cfg.offsets 3) =
      tm.cosDeg (jVars θ 3 + cfg.offsets 3) := key _ hc _ _ _ (h 2)
  have e3s : tm.sinDeg (jVars θ' 3 + cfg.offsets 3) =
      tm.sinDeg (jVars θ 3 + cfg.offsets 3) := key _ hs _ _ _ (h 2)
  have e4c : tm.cosDeg (jVars θ' 4 + cfg.offsets 4) =
      tm.cosDeg (jVars θ 4 + cfg.offsets 4) := key _ hc _ _ _ (h 3)
  have e4s : tm.sinDeg (jVars θ' 4 + cfg.offsets 4) =
      tm.sinDeg (jVars θ 4 + cfg.offsets 4) := key _ hs _ _ _ (h 3)
  have e5c : tm.cosDeg (jVars θ' 5 + cfg.offsets 5) =
      tm.cosDeg (jVars θ 5 + cfg.offsets 5) := key _ hc _ _ _ (h 4)
  have e5s : tm.sinDeg (jVars θ' 5 + cfg.offsets 5) =
      tm.sinDeg (jVars θ 5 + cfg.offsets 5) := key _ hs _ _ _ (h 4)
  have e6c : tm.cosDeg (jVars θ' 6 + cfg.offsets 6) =
      tm.cosDeg (jVars θ 6 + cfg.offsets 6) := key _ hc _ _ _ (h 5)
  have e6s : tm.sinDeg (jVars θ' 6 + cfg.offsets 6) =
      tm.sinDeg (jVars θ 6 + cfg.offsets 6) := key _ hs _ _ _ (h 5)
  simp only [forwardKinematicsChain, applyTransforms, Mat4.makeRotation,
    Mat4.rotX, Mat4.rotY, Mat4.rotZ, jVars_zero, e1c, e1s, e2c, e2s, e3c,
    e3s, e4c, e4s, e5c, e5s, e6c, e6s]

lemma ikLoop_iterate (tm : ThreeModel F) (cfg : DHParameterConfig F)
    (tp : Vec3 F) (tq : Quat F) (n : ℕ) :
    ∀ a : Fin 6 → F, ∃ m, m ≤ n ∧
      ikLoop tm cfg tp tq n a = (ikStep tm cfg tp tq)^[m] a := by
  induction n with
  | zero => exact fun a => ⟨0, le_refl 0, rfl⟩
  | succ k ih =>
    intro a
    by_cases h : ikConverged tm cfg tp tq a
    · exact ⟨0, Nat.zero_le _, by simp only [ikLoop, if_pos h,
        Function.iterate_zero_apply]⟩
    · obtain ⟨m, hm, he⟩ := ih (ikStep tm cfg tp tq a)
      refine ⟨m + 1, Nat.succ_le_succ hm, ?_⟩
      simp only [ikLoop, if_neg h]
      rw [he, Function.iterate_succ_apply]

/-! ### Pose algebra and the flange target -/

/-- `PoseData` from the parser service: position plus Z-Y-X Euler angles,
polymorphic in the number carrier. -/
structure PoseData (α : Type) where
  x : α
  y : α
  z : α
  a : α
  b : α
  c : α
deriving DecidableEq

/-- `KinematicsService.poseToMatrix`:
`T = Translate(x,y,z) · Rz(a) · Ry(b) · Rx(c)`, grouped exactly as the
source composes it. -/
def poseToMatrix (tm : ThreeModel F) (p : PoseData F) : Mat4 F :=
  (Mat4.id.mul (Mat4.makeTranslation p.x p.y p.z)).mul
    (((Mat4.rotZ tm p.a).mul (Mat4.rotY tm p.b)).mul (Mat4.rotX tm p.c))

/-- 3x3 determinant helper. -/
def det3 (a b c d e f g h i : F) : F :=
  a * (e * i - f * h) - b * (d * i - f * g) + c * (d * h - e * g)

/-- Determinant of a 4x4 matrix (first-row cofactor expansion, equal as a
polynomial to the first-column expansion three.js `Matrix4.invert` uses). -/
def Mat4.det (M : Mat4 F) : F :=
  M.m11 * det3 M.m22 M.m23 M.m24 M.m32 M.m33 M.m34 M.m42 M.m43 M.m44 -
    M.m12 * det3 M.m21 M.m23 M.m24 M.m31 M.m33 M.m34 M.m41 M.m43 M.m44 +
    M.m13 * det3 M.m21 M.m22 M.m24 M.m31 M.m32 M.m34 M.m41 M.m42 M.m44 -
    M.m14 * det3 M.m21 M.m22 M.m23 M.m31 M.m32 M.m33 M.m41 M.m42 M.m43

/-- Classical adjugate of a 4x4 matrix: entry `(i, j)` is the `(j, i)`
cofactor.  three.js `Matrix4.invert` computes exactly these sixteen cofactor
expressions. -/
def Mat4.adjugate (M : Mat4 F) : Mat4 F where
  m11 := det3 M.m22 M.m23 M.m24 M.m32 M.m33 M.m34 M.m42 M.m43 M.m44
  m12 := -det3 M.m12 M.m13 M.m14 M.m32 M.m33 M.m34 M.m42 M.m43 M.m44
  m13 := det3 M.m12 M.m13 M.m14 M.m22 M.m23 M.m24 M.m42 M.m43 M.m44
  m14 := -det3 M.m12 M.m13 M.m14 M.m22 M.m23 M.m24 M.m32 M.m33 M.m34
  m21 := -det3 M.m21 M.m23 M.m24 M.m31 M.m33 M.m34 M.m41 M.m43 M.m44
  m22 := det3 M.m11 M.m13 M.m14 M.m31 M.m33 M.m34 M.m41 M.m43 M.m44
  m23 := -det3 M.m11 M.m13 M.m14 M.m21 M.m23 M.m24 M.m41 M.m43 M.m44
  m24 := det3 M.m11 M.m13 M.m14 M.m21 M.m23 M.m24 M.m31 M.m33 M.m34
  m31 := det3 M.m21 M.m22 M.m24 M.m31 M.m32 M.m34 M.m41 M.m42 M.m44
  m32 := -det3 M.m11 M.m12 M.m14 M.m31 M.m32 M.m34 M.m41 M.m42 M.m44
  m33 := det3 M.m11 M.m12 M.m14 M.m21 M.m22 M.m24 M.m41 M.m42 M.m44
  m34 := -det3 M.m11 M.m12 M.m14 M.m21 M.m22 M.m24 M.m31 M.m32 M.m34
  m41 := -det3 M.m21 M.m22 M.m23 M.m31 M.m32 M.m33 M.m41 M.m42 M.m43
  m42 := det3 M.m11 M.m12 M.m13 M.m31 M.m32 M.m33 M.m41 M.m42 M.m43
  m43 := -det3 M.m11 M.m12 M.m13 M.m21 M.m22 M.m23 M.m41 M.m42 M.m43
  m44 := det3 M.m11 M.m12 M.m13 M.m21 M.m22 M.m23 M.m31 M.m32 M.m33

/-- Entrywise scalar multiple of a matrix. -/
def Mat4.smulE (s : F) (M : Mat4 F) : Mat4 F :=
  ⟨s * M.m11, s * M.m12, s * M.m13, s * M.m14,
   s * M.m21, s * M.m22, s * M.m23, s * M.m24,
   s * M.m31, s * M.m32, s * M.m33, s * M.m34,
   s * M.m41, s * M.m42, s * M.m43, s * M.m44⟩

/-- All-zero matrix, which three.js `Matrix4.invert` returns when the
determinant vanishes. -/
def Mat4.zeroM : Mat4 F :=
  ⟨0, 0, 0, 0, 0, 0, 0, 0, 0, 0, 0, 0, 0, 0, 0, 0⟩

/-- three.js `Matrix4.invert`: the zero matrix when the determinant is 0,
otherwise every cofactor multiplied by the reciprocal determinant. -/
def Mat4.invert (M : Mat4 F) : Mat4 F :=
  if M.det = 0 then Mat4.zeroM else Mat4.smulE (1 / M.det) M.adjugate

/-- `KinematicsService.calculateFlangeTarget`: `TCP = World · Point`,
`Flange = TCP · Tool⁻¹`, plus the flange position read off the matrix. -/
def calculateFlangeTarget (tm : ThreeModel F)
    (point worldOffset toolOffset : PoseData F) : Vec3 F × Mat4 F :=
  let matWorld := poseToMatrix tm worldOffset
  let matPoint := poseToMatrix tm point
  let matTool := poseToMatrix tm toolOffset
  let matTCP := matWorld.mul matPoint
  let matFlange := matTCP.mul matTool.invert
  (Mat4.translationOf matFlange, matFlange)

lemma Mat4.smulE_one (M : Mat4 F) : Mat4.smulE 1 M = M := by
  ext <;> simp [Mat4.smulE]

set_option maxHeartbeats 1000000 in
lemma Mat4.mul_adjugate (M : Mat4 F) :
    M.mul M.adjugate = Mat4.smulE M.det Mat4.id := by
  ext <;>
    simp only [Mat4.mul, Mat4.adjugate, Mat4.smulE, Mat4.id, Mat4.det,
      det3] <;>
    ring

set_option maxHeartbeats 1000000 in
lemma Mat4.adjugate_mul (M : Mat4 F) :
    M.adjugate.mul M = Mat4.smulE M.det Mat4.id := by
  ext <;>
    simp only [Mat4.mul, Mat4.adjugate, Mat4.smulE, Mat4.id, Mat4.det,
      det3] <;>
    ring

set_option maxHeartbeats 1600000 in
lemma poseToMatrix_det (tm : ThreeModel F) (p : PoseData F) :
    (poseToMatrix tm p).det =
      (tm.cosDeg p.a * tm.cosDeg p.a + tm.sinDeg p.a * tm.sinDeg p.a) *
        ((tm.cosDeg p.b * tm.cosDeg p.b + tm.sinDeg p.b * tm.sinDeg p.b) *
          (tm.cosDeg p.c * tm.cosDeg p.c + tm.sinDeg p.c * tm.sinDeg p.c)) := by
  simp only [poseToMatrix, Mat4.mul, Mat4.id, Mat4.makeTranslation,
    Mat4.rotX, Mat4.rotY, Mat4.rotZ, Mat4.det, det3]
  ring

/-- C6: `calculateFlangeTarget` returns exactly
`World · Waypoint · Tool⁻¹` together with that matrix's translation, where
`Tool⁻¹` is a genuine two-sided matrix inverse of the tool pose matrix (not a
negated-translation shortcut).  The hypotheses are the Pythagorean identities
for the trigonometric primitives at the three tool angles, under which the
tool matrix has determinant 1 and three.js `invert` produces its true
inverse. -/
theorem claim_C6_flange_target {F : Type} [LinearOrderedField F]
    (tm : ThreeModel F) (point world tool : PoseData F)
    (ha : tm.cosDeg tool.a * tm.cosDeg tool.a +
        tm.sinDeg tool.a * tm.sinDeg tool.a = 1)
    (hb : tm.cosDeg tool.b * tm.cosDeg tool.b +
        tm.sinDeg tool.b * tm.sinDeg tool.b = 1)
    (hc : tm.cosDeg tool.c * tm.cosDeg tool.c +
        tm.sinDeg tool.c * tm.sinDeg tool.c = 1) :
    (calculateFlangeTarget tm point world tool).2 =
        ((poseToMatrix tm world).mul (poseToMatrix tm point)).mul
          (poseToMatrix tm tool).invert ∧
      (poseToMatrix tm tool).mul (poseToMatrix tm tool).invert = Mat4.id ∧
      ((poseToMatrix tm tool).invert).mul (poseToMatrix tm tool) = Mat4.id ∧
      (calculateFlangeTarget tm point world tool).1 =
        Mat4.translationOf (calculateFlangeTarget tm point world tool).2 := by
  have hdet : (poseToMatrix tm tool).det = 1 := by
    rw [poseToMatrix_det, ha, hb, hc]
    norm_num
  have hinv : (poseToMatrix tm tool).invert =
      (poseToMatrix tm tool).adjugate := by
    unfold Mat4.invert
    rw [hdet, if_neg one_ne_zero, show (1 : F) / 1 = 1 from by norm_num,
      Mat4.smulE_one]
  refine ⟨rfl, ?_, ?_, rfl⟩
  · rw [hinv, Mat4.mul_adjugate, hdet, Mat4.smulE_one]
  · rw [hinv, Mat4.adjugate_mul, hdet, Mat4.smulE_one]

section IKSolver

variable [FloorRing F]

/-- Truncation toward zero, which is how the JavaScript `%` operator divides. -/
def truncVal (x : F) : ℤ :=
  if 0 ≤ x then Int.floor x else -Int.floor (-x)

/-- JavaScript remainder `a % n` on field elements: `a - n * trunc (a / n)`. -/
def jsRem (a n : F) : F :=
  a - n * ((truncVal (a / n) : ℤ) : F)

/-- The per-angle normalisation applied after the IK loop:
`a % 360`, then `-360` if above `180`, then `+360` if below `-180`. -/
def normalizeAngle (a : F) : F :=
  let angle := jsRem a 360
  let angle2 := if 180 < angle then angle - 360 else angle
  if angle2 < -180 then angle2 + 360 else angle2

/-- `KinematicsService.inverseKinematics`: decompose the target, run at most
200 iterations, normalize every output angle. -/
def inverseKinematics (tm : ThreeModel F) (cfg : DHParameterConfig F)
    (targetMatrix : Mat4 F) (currentAnglesDeg : Fin 6 → F) : Fin 6 → F :=
  let targetPos := Mat4.translationOf targetMatrix
  let targetQuat := tm.decomposeQuat targetMatrix
  fun j => normalizeAngle (ikLoop tm cfg targetPos targetQuat 200 currentAnglesDeg j)

/-! ### Lemmas about the IK loop -/

lemma inverseKinematics_at_fk (tm : ThreeModel F) (cfg : DHParameterConfig F)
    (θ : Fin 6 → F) :
    inverseKinematics tm cfg (fkEnd tm cfg θ) θ =
      fun j => normalizeAngle (θ j) := by
  funext j
  show normalizeAngle
      (ikLoop tm cfg (Mat4.translationOf (fkEnd tm cfg θ))
        (tm.decomposeQuat (fkEnd tm cfg θ)) 200 θ j) =
    normalizeAngle (θ j)
  rw [show (200 : Nat) = 199 + 1 from rfl,
    ikLoop_converged tm cfg _ _ 199 θ (ikConverged_self tm cfg θ)]

lemma normalizeAngle_def (a : F) :
    normalizeAngle a =
      (if (if 180 < jsRem a 360 then jsRem a 360 - 360 else jsRem a 360) < -180
       then (if 180 < jsRem a 360 then jsRem a 360 - 360 else jsRem a 360) + 360
       else (if 180 < jsRem a 360 then jsRem a 360 - 360 else jsRem a 360)) := rfl

lemma jsRem_bounds (a : F) : -360 < jsRem a 360 ∧ jsRem a 360 < 360 := by
  have ha : (360 : F) * (a / 360) = a := by
    field_simp
  unfold jsRem truncVal
  split_ifs with h
  · have h1 : ((Int.floor (a / 360) : ℤ) : F) ≤ a / 360 := Int.floor_le _
    have h2 : a / 360 < ((Int.floor (a / 360) : ℤ) : F) + 1 :=
      Int.lt_floor_add_one _
    constructor <;> nlinarith
  · have h1 : ((Int.floor (-(a / 360)) : ℤ) : F) ≤ -(a / 360) :=
      Int.floor_le _
    have h2 : -(a / 360) < ((Int.floor (-(a / 360)) : ℤ) : F) + 1 :=
      Int.lt_floor_add_one _
    push_cast
    constructor <;> nlinarith

lemma normalizeAngle_bounds (a : F) :
    -180 ≤ normalizeAngle a ∧ normalizeAngle a ≤ 180 := by
  obtain ⟨h1, h2⟩ := jsRem_bounds a
  rw [normalizeAngle_def]
  split_ifs with ha hb hc <;> constructor <;> linarith

lemma normalizeAngle_shift (a : F) :
    ∃ k : ℤ, normalizeAngle a = a + 360 * (k : F) := by
  rw [normalizeAngle_def]
  unfold jsRem
  split_ifs with h1 h2 h3
  · exact ⟨-(truncVal (a / 360)), by push_cast; ring⟩
  · exact ⟨-(truncVal (a / 360)) - 1, by push_cast; ring⟩
  · exact ⟨-(truncVal (a / 360)) + 1, by push_cast; ring⟩
  · exact ⟨-(truncVal (a / 360)), by push_cast; ring⟩


/-- C2: seeding the IK solver with `Θ` on target `forwardKinematics(Θ)`
converges on the first iteration with no angle update (the convergence test
passes immediately, so the returned vector is just the normalisation of `Θ`),
and the returned vector's forward-kinematics end pose coincides with the
target pose — in particular the source's position- and orientation-error
measures are below the 0.1 mm and 0.001 rad thresholds.  The hypotheses state
that the trigonometric primitives are 360-degree periodic. -/
theorem claim_C2_roundtrip {F : Type} [LinearOrderedField F] [FloorRing F]
    (tm : ThreeModel F) (cfg : DHParameterConfig F) (θ : Fin 6 → F)
    (hc : ∀ x : F, tm.cosDeg (x + 360) = tm.cosDeg x)
    (hs : ∀ x : F, tm.sinDeg (x + 360) = tm.sinDeg x) :
    ikConverged tm cfg (Mat4.translationOf (fkEnd tm cfg θ))
        (tm.decomposeQuat (fkEnd tm cfg θ)) θ ∧
      inverseKinematics tm cfg (fkEnd tm cfg θ) θ =
        (fun j => normalizeAngle (θ j)) ∧
      fkEnd tm cfg (inverseKinematics tm cfg (fkEnd tm cfg θ) θ) =
        fkEnd tm cfg θ ∧
      Vec3.lengthSq
          (Vec3.sub
            (Mat4.translationOf
              (fkEnd tm cfg (inverseKinematics tm cfg (fkEnd tm cfg θ) θ)))
            (Mat4.translationOf (fkEnd tm cfg θ))) < 1 / 100 ∧
      Vec3.lengthSq
          (ikErrRot (tm.decomposeQuat (fkEnd tm cfg θ))
            (tm.decomposeQuat
              (fkEnd tm cfg (inverseKinematics tm cfg (fkEnd tm cfg θ) θ))))
        < 1 / 1000000 := by
  have hfix := inverseKinematics_at_fk tm cfg θ
  have hend : fkEnd tm cfg (inverseKinematics tm cfg (fkEnd tm cfg θ) θ) =
      fkEnd tm cfg θ := by
    rw [hfix]
    unfold fkEnd
    rw [fk_period tm cfg hc hs θ (fun j => normalizeAngle (θ j))
      (fun j => normalizeAngle_shift (θ j))]
  refine ⟨ikConverged_self tm cfg θ, hfix, hend, ?_, ?_⟩
  · rw [hend]
    simp [Vec3.sub, Vec3.lengthSq, sub_self]
  · rw [hend, ikErrRot_self]
    simp [Vec3.lengthSq]

/-- C4: for every target matrix, seed vector and DH configuration, the IK
solver performs at most 200 update sweeps and always returns a vector: its
output is exactly the per-angle normalisation of the `n`-fold Jacobian
update of the seed for some `n ≤ 200` (so on non-convergence it silently
returns its current best estimate after the iteration cap — in this total
embedding there is no failure value or exception at all). -/
theorem claim_C4_iteration_bound {F : Type} [LinearOrderedField F]
    [FloorRing F] (tm : ThreeModel F) (cfg : DHParameterConfig F)
    (T : Mat4 F) (seed : Fin 6 → F) :
    ∃ n, n ≤ 200 ∧
      inverseKinematics tm cfg T seed = fun j =>
        normalizeAngle
          ((ikStep tm cfg (Mat4.translationOf T)
            (tm.decomposeQuat T))^[n] seed j) := by
  obtain ⟨m, hm, he⟩ :=
    ikLoop_iterate tm cfg (Mat4.translationOf T) (tm.decomposeQuat T) 200 seed
  refine ⟨m, hm, ?_⟩
  funext j
  show normalizeAngle
      (ikLoop tm cfg (Mat4.translationOf T) (tm.decomposeQuat T) 200 seed j) =
    _
  rw [he]

/-- C3 (amended): every entry of an IK result lies in the closed interval
`[-180, 180]`.  The original claim's half-open interval `(-180, 180]` is
refuted by `claim_C3_range_counterexample`: an input angle congruent to
`-180` modulo 360 normalizes to `-180` itself, because the source's final
`if (angle < -180)` test is strict. -/
theorem claim_C3_normalized_range {F : Type} [LinearOrderedField F]
    [FloorRing F] (tm : ThreeModel F) (cfg : DHParameterConfig F)
    (T : Mat4 F) (seed : Fin 6 → F) (j : Fin 6) :
    -180 ≤ inverseKinematics tm cfg T seed j ∧
      inverseKinematics tm cfg T seed j ≤ 180 :=
  normalizeAngle_bounds _

/-- Concrete rational instantiation of the three.js primitives, used for
closed-form evaluations: the trigonometric fields are the constant
0-degree values (which are 360-periodic), and the decomposition fields
return identity rotations. -/
def qModel : ThreeModel ℚ where
  cosDeg := fun _ => 1
  sinDeg := fun _ => 0
  decomposeQuat := fun _ => ⟨0, 0, 0, 1⟩
  rotQuat := fun _ => ⟨0, 0, 0, 1⟩
  normVec := fun v => v
  eulerOfQuat := fun _ => ⟨0, 0, 0⟩
  quatOfEuler := fun _ => ⟨0, 0, 0, 1⟩

/-- All-zero DH parameter table over ℚ. -/
def zeroDH : DHParameterConfig ℚ :=
  ⟨fun _ => 0, fun _ => 0, fun _ => 0, fun _ => 0⟩

/-- Seed vector whose first joint angle is exactly `-180` degrees. -/
def seedNeg : Fin 6 → ℚ :=
  fun j => if j.val = 0 then -180 else 0

/-- C3 (counterexample): solving for the pose reached by the seed
`(-180, 0, 0, 0, 0, 0)` returns `-180` for joint 0, which is not in the
claimed half-open interval `(-180, 180]`. -/
theorem claim_C3_range_counterexample :
    inverseKinematics qModel zeroDH (fkEnd qModel zeroDH seedNeg) seedNeg 0 =
        -180 ∧
      ¬ (-180 <
          inverseKinematics qModel zeroDH (fkEnd qModel zeroDH seedNeg)
            seedNeg 0) := by
  have h0 : inverseKinematics qModel zeroDH (fkEnd qModel zeroDH seedNeg)
      seedNeg 0 = normalizeAngle ((-180 : ℚ)) := by
    rw [inverseKinematics_at_fk qModel zeroDH seedNeg]
    rfl
  have hfl : Int.floor ((180 : ℚ) / 360) = 0 := by
    rw [Int.floor_eq_zero_iff]
    norm_num
  have ht : truncVal ((-180 : ℚ) / 360) = 0 := by
    unfold truncVal
    rw [if_neg (by norm_num), show (-((-180 : ℚ) / 360)) = (180 : ℚ) / 360 from
      by norm_num, hfl]
    norm_num
  have hj : jsRem (-180 : ℚ) 360 = -180 := by
    unfold jsRem
    rw [show ((-180 : ℚ) / 360) = ((-180 : ℚ) / 360) from rfl, ht]
    push_cast
    ring
  have hn : normalizeAngle (-180 : ℚ) = -180 := by
    rw [normalizeAngle_def, hj]
    norm_num
  rw [h0, hn]
  constructor
  · rfl
  · norm_num


/-- Witness for C2 at the concrete rational model, zero DH table and seed
`(-180, 0, 0, 0, 0, 0)`: the periodicity hypotheses hold definitionally for
the constant trigonometric fields, and the round-trip conclusion follows by
the theorem. -/
theorem claim_C2_roundtrip_witness :
    (∀ x : ℚ, qModel.cosDeg (x + 360) = qModel.cosDeg x) ∧
      (∀ x : ℚ, qModel.sinDeg (x + 360) = qModel.sinDeg x) ∧
      (ikConverged qModel zeroDH (Mat4.translationOf (fkEnd qModel zeroDH seedNeg))
        (qModel.decomposeQuat (fkEnd qModel zeroDH seedNeg)) seedNeg ∧
      inverseKinematics qModel zeroDH (fkEnd qModel zeroDH seedNeg) seedNeg =
        (fun j => normalizeAngle (seedNeg j)) ∧
      fkEnd qModel zeroDH (inverseKinematics qModel zeroDH (fkEnd qModel zeroDH seedNeg) seedNeg) =
        fkEnd qModel zeroDH seedNeg ∧
      Vec3.lengthSq
          (Vec3.sub
            (Mat4.translationOf
              (fkEnd qModel zeroDH (inverseKinematics qModel zeroDH (fkEnd qModel zeroDH seedNeg) seedNeg)))
            (Mat4.translationOf (fkEnd qModel zeroDH seedNeg))) < 1 / 100 ∧
      Vec3.lengthSq
          (ikErrRot (qModel.decomposeQuat (fkEnd qModel zeroDH seedNeg))
            (qModel.decomposeQuat
              (fkEnd qModel zeroDH (inverseKinematics qModel zeroDH (fkEnd qModel zeroDH seedNeg) seedNeg))))
        < 1 / 1000000 ) :=
  ⟨fun _ => rfl, fun _ => rfl,
    claim_C2_roundtrip qModel zeroDH seedNeg (fun _ => rfl) (fun _ => rfl)⟩


/-- Witness for C6 at the concrete rational model and sample poses: the
Pythagorean hypotheses hold definitionally for the constant trigonometric
fields. -/
theorem claim_C6_flange_target_witness :
    (qModel.cosDeg (10 : ℚ) * qModel.cosDeg 10 +
        qModel.sinDeg 10 * qModel.sinDeg 10 = 1) ∧
      ((poseToMatrix qModel ⟨1, 2, 3, 10, 20, 30⟩).mul
          (poseToMatrix qModel
            (⟨1, 2, 3, 10, 20, 30⟩ : PoseData ℚ)).invert = Mat4.id ∧
        (calculateFlangeTarget qModel ⟨4, 5, 6, 0, 0, 0⟩ ⟨7, 8, 9, 0, 0, 0⟩
            ⟨1, 2, 3, 10, 20, 30⟩).2 =
          ((poseToMatrix qModel ⟨7, 8, 9, 0, 0, 0⟩).mul
              (poseToMatrix qModel ⟨4, 5, 6, 0, 0, 0⟩)).mul
            (poseToMatrix qModel
              (⟨1, 2, 3, 10, 20, 30⟩ : PoseData ℚ)).invert) :=
  ⟨by norm_num [qModel],
    (claim_C6_flange_target qModel ⟨4, 5, 6, 0, 0, 0⟩ ⟨7, 8, 9, 0, 0, 0⟩
        ⟨1, 2, 3, 10, 20, 30⟩ (by norm_num [qModel]) (by norm_num [qModel])
        (by norm_num [qModel])).2.1,
    (claim_C6_flange_target qModel ⟨4, 5, 6, 0, 0, 0⟩ ⟨7, 8, 9, 0, 0, 0⟩
        ⟨1, 2, 3, 10, 20, 30⟩ (by norm_num [qModel]) (by norm_num [qModel])
        (by norm_num [qModel])).1⟩



end IKSolver

/-! ### Trajectory queue player -/

/-- Array indexing `arr[i]` for a JavaScript number array, with out-of-range
reads mapped to 0 (the claims only evaluate it in range). -/
def entry : List F → ℕ → F
  | [], _ => 0
  | x :: _, 0 => x
  | _ :: xs, j + 1 => entry xs j

lemma entry_zero (ts : List F) : entry ts 0 = ts.headD 0 := by
  cases ts <;> rfl

lemma entry_succ (ts : List F) (j : ℕ) :
    entry ts (j + 1) = entry ts.tail j := by
  cases ts <;> rfl

/-- JavaScript `Math.sign` restricted to finite numbers. -/
def jsSign (d : F) : F :=
  if 0 < d then 1 else if d < 0 then -1 else 0

/-- Per-joint advance of `TrajectoryPlayer`: walk the current angle list,
reading the target at the same index (`target[i]`), move each joint with
`|diff| > 0.1` toward the target by at most `speed`, snap the others, and
accumulate the `reached` flag that starts `true` and is cleared by any far
joint. -/
def stepJoints (speed : F) : List F → List F → List F × Bool
  | _, [] => ([], true)
  | ts, c :: cs =>
    let t := ts.headD 0
    let rest := stepJoints speed ts.tail cs
    let diff := t - c
    if 1 / 10 < |diff| then
      ((c + jsSign diff * min |diff| speed) :: rest.1, false)
    else
      (t :: rest.1, rest.2)

/-- One `useFrame` tick of `TrajectoryPlayer`: no-op on an empty queue;
otherwise advance every joint toward the front target at up to `120° × dt`,
pop the front entry exactly when the pre-move `reached` scan stayed true,
and signal completion exactly when that pop leaves the queue empty.  Returns
(new queue, new current angles, finished flag). -/
def trajectoryPlayerTick (dt : F) (queue : List (List F))
    (current : List F) : List (List F) × List F × Bool :=
  match queue with
  | [] => ([], current, false)
  | target :: rest =>
    let speed := 120 * dt
    let r := stepJoints speed target current
    (if r.2 then rest else target :: rest, r.1, r.2 && rest.isEmpty)

lemma stepJoints_cons_fst (speed : F) (ts : List F) (c : F) (cs : List F) :
    (stepJoints speed ts (c :: cs)).1 =
      (if 1 / 10 < |ts.headD 0 - c| then
        c + jsSign (ts.headD 0 - c) * min |ts.headD 0 - c| speed
      else ts.headD 0) :: (stepJoints speed ts.tail cs).1 := by
  simp only [stepJoints]
  split_ifs <;> rfl

lemma stepJoints_cons_snd (speed : F) (ts : List F) (c : F) (cs : List F) :
    (stepJoints speed ts (c :: cs)).2 =
      (if 1 / 10 < |ts.headD 0 - c| then false
       else (stepJoints speed ts.tail cs).2) := by
  simp only [stepJoints]
  split_ifs <;> rfl

lemma stepJoints_reached (speed : F) (ts cs : List F) :
    (stepJoints speed ts cs).2 = true ↔
      ∀ j, j < cs.length → |entry ts j - entry cs j| ≤ 1 / 10 := by
  induction cs generalizing ts with
  | nil => simp [stepJoints]
  | cons c cs ih =>
    rw [stepJoints_cons_snd]
    split_ifs with h
    · simp only [Bool.false_eq_true, false_iff, not_forall]
      refine ⟨0, ⟨by simp, ?_⟩⟩
      rw [entry_zero, show entry (c :: cs) 0 = c from rfl]
      exact not_le.mpr h
    · rw [ih ts.tail]
      constructor
      · intro hall j hj
        cases j with
        | zero =>
          rw [entry_zero, show entry (c :: cs) 0 = c from rfl]
          exact not_lt.mp h
        | succ k =>
          have hk : k < cs.length := by
            simp only [List.length_cons] at hj
            omega
          rw [entry_succ, show entry (c :: cs) (k + 1) = entry cs k from rfl]
          exact hall k hk
      · intro hall j hj
        have := hall (j + 1) (by simp only [List.length_cons]; omega)
        rw [entry_succ, show entry (c :: cs) (j + 1) = entry cs j from rfl]
          at this
        exact this

lemma stepJoints_entry (speed : F) (ts cs : List F) (j : ℕ)
    (hj : j < cs.length) :
    entry (stepJoints speed ts cs).1 j =
      (if 1 / 10 < |entry ts j - entry cs j| then
        entry cs j +
          jsSign (entry ts j - entry cs j) *
            min |entry ts j - entry cs j| speed
      else entry ts j) := by
  induction cs generalizing ts j with
  | nil => simp at hj
  | cons c cs ih =>
    rw [stepJoints_cons_fst]
    cases j with
    | zero =>
      simp only [entry]
      rw [entry_zero]
    | succ k =>
      have hk : k < cs.length := by
        simp only [List.length_cons] at hj
        omega
      rw [entry_succ ts, show entry (c :: cs) (k + 1) = entry cs k from rfl,
        show entry ((if 1 / 10 < |ts.headD 0 - c| then
            c + jsSign (ts.headD 0 - c) * min |ts.headD 0 - c| speed
          else ts.headD 0) :: (stepJoints speed ts.tail cs).1) (k + 1) =
          entry (stepJoints speed ts.tail cs).1 k from rfl]
      exact ih ts.tail k hk

lemma abs_jsSign (d : F) (hd : d ≠ 0) : |jsSign d| = 1 := by
  unfold jsSign
  split_ifs with h1 h2
  · simp
  · simp
  · exact absurd (le_antisymm (not_lt.mp h1) (not_lt.mp h2)) hd

/-- C5 (amended): on a tick with elapsed time `dt ≥ 0`, an empty queue is a
no-op; otherwise each joint beyond the 0.1° band moves toward the front
target by at most `120° × dt`, each joint within the band snaps exactly to
the target, the front entry is popped exactly when every joint was within
the 0.1° band BEFORE the move (the source's `reached` scan runs on pre-move
differences), and completion is signalled exactly when that pop leaves the
queue empty.  The original claim's pop condition — the band test on the
post-move state — is refuted by `claim_C5_tick_counterexample`. -/
theorem claim_C5_tick_amended (dt : F) (current target : List F)
    (rest : List (List F)) (hdt : 0 ≤ dt) :
    trajectoryPlayerTick dt [] current = ([], current, false) ∧
      (∀ j, j < current.length →
        entry (trajectoryPlayerTick dt (target :: rest) current).2.1 j =
          (if 1 / 10 < |entry target j - entry current j| then
            entry current j +
              jsSign (entry target j - entry current j) *
                min |entry target j - entry current j| (120 * dt)
          else entry target j)) ∧
      (∀ j, j < current.length →
        1 / 10 < |entry target j - entry current j| →
          |entry (trajectoryPlayerTick dt (target :: rest) current).2.1 j -
              entry current j| ≤ 120 * dt) ∧
      (∀ j, j < current.length →
        |entry target j - entry current j| ≤ 1 / 10 →
          entry (trajectoryPlayerTick dt (target :: rest) current).2.1 j =
            entry target j) ∧
      ((trajectoryPlayerTick dt (target :: rest) current).1 = rest ↔
        ∀ j, j < current.length →
          |entry target j - entry current j| ≤ 1 / 10) ∧
      ((trajectoryPlayerTick dt (target :: rest) current).2.2 = true ↔
        ((∀ j, j < current.length →
            |entry target j - entry current j| ≤ 1 / 10) ∧ rest = [])) := by
  refine ⟨rfl, ?_, ?_, ?_, ?_, ?_⟩
  · intro j hj
    exact stepJoints_entry (120 * dt) target current j hj
  · intro j hj hfar
    show |entry (stepJoints (120 * dt) target current).1 j -
        entry current j| ≤ 120 * dt
    rw [stepJoints_entry (120 * dt) target current j hj, if_pos hfar]
    have hd0 : entry target j - entry current j ≠ 0 := by
      intro h0
      rw [h0, abs_zero] at hfar
      norm_num at hfar
    rw [add_sub_cancel_left, abs_mul, abs_jsSign _ hd0, one_mul,
      abs_of_nonneg (le_min (abs_nonneg _) (by positivity))]
    exact min_le_right _ _
  · intro j hj hnear
    show entry (stepJoints (120 * dt) target current).1 j = entry target j
    rw [stepJoints_entry (120 * dt) target current j hj,
      if_neg (not_lt.mpr hnear)]
  · show (if (stepJoints (120 * dt) target current).2 then rest
        else target :: rest) = rest ↔ _
    rw [← stepJoints_reached (120 * dt) target current]
    constructor
    · intro hpop
      by_contra hfalse
      rw [Bool.not_eq_true] at hfalse
      rw [if_neg (by simp [hfalse])] at hpop
      exact List.cons_ne_self target rest hpop
    · intro htrue
      rw [if_pos htrue]
  · show ((stepJoints (120 * dt) target current).2 && rest.isEmpty) = true ↔ _
    rw [Bool.and_eq_true, stepJoints_reached, List.isEmpty_iff]

/-- Witness for C5 at `dt = 1` over ℚ, discharging the `0 ≤ dt` hypothesis. -/
theorem claim_C5_tick_amended_witness :
    (0 : ℚ) ≤ 1 ∧
      trajectoryPlayerTick (1 : ℚ) [] [0, 0, 0, 0, 0, 0] =
        ([], [0, 0, 0, 0, 0, 0], false) :=
  ⟨by norm_num,
    (claim_C5_tick_amended (1 : ℚ) [0, 0, 0, 0, 0, 0] [10, 0, 0, 0, 0, 0] []
        (by norm_num)).1⟩

/-- C5 (counterexample): target `(10,0,0,0,0,0)` from `(0,...,0)` with
`dt = 1`: joint 0 moves the full 10° (its pre-move difference exceeds the
band, so `reached` is cleared), landing exactly on the target — every joint
is within the 0.1° band AFTER the step — yet the front entry is not popped
and no completion is signalled, refuting the claim's "popped exactly when
all six joints are within the band after this step". -/
theorem claim_C5_tick_counterexample :
    trajectoryPlayerTick (1 : ℚ) [[10, 0, 0, 0, 0, 0]] [0, 0, 0, 0, 0, 0] =
      ([[10, 0, 0, 0, 0, 0]], [10, 0, 0, 0, 0, 0], false) := by
  norm_num [trajectoryPlayerTick, stepJoints, jsSign, abs_of_nonneg, min_def]


/-! ### Path generator: the line trajectory -/

/-- Matrix built by three.js `Matrix4.compose` from a position and a
quaternion at scale `(1,1,1)`. -/
def composeM (pos : Vec3 F) (q : Quat F) : Mat4 F :=
  ⟨1 - 2 * (q.y * q.y + q.z * q.z), 2 * (q.x * q.y - q.w * q.z),
     2 * (q.x * q.z + q.w * q.y), pos.x,
   2 * (q.x * q.y + q.w * q.z), 1 - 2 * (q.x * q.x + q.z * q.z),
     2 * (q.y * q.z - q.w * q.x), pos.y,
   2 * (q.x * q.z - q.w * q.y), 2 * (q.y * q.z + q.w * q.x),
     1 - 2 * (q.x * q.x + q.y * q.y), pos.z,
   0, 0, 0, 1⟩

section PathGenerators

variable [FloorRing F]

/-- The `line` branch of `generateTrajectoryPoints` in the source: 61
samples (`for i in 0..steps`, `steps = 60`) of linear interpolation from the
current end-effector position to the position offset `+500` along the
robot-frame X axis, each composed with the start orientation (obtained via
the source's decompose/Euler round trip) and solved by the IK solver seeded
with the previous solution; the solutions are accumulated left to right. -/
def generateTrajectoryPointsLine (tm : ThreeModel F)
    (cfg : DHParameterConfig F) (θ0 : Fin 6 → F) : List (Fin 6 → F) :=
  let startM := endOfChain (forwardKinematicsChain tm cfg θ0)
  let startPos := Mat4.translationOf startM
  let startQuat := tm.quatOfEuler (tm.eulerOfQuat (tm.decomposeQuat startM))
  let endPos : Vec3 F := ⟨startPos.x + 500, startPos.y, startPos.z⟩
  ((List.range 61).foldl
    (fun acc (i : ℕ) =>
      let pos := Vec3.lerpV startPos endPos ((i : F) / 60)
      let mat := composeM pos startQuat
      let sol := inverseKinematics tm cfg mat acc.1
      (sol, acc.2 ++ [sol]))
    (θ0, [])).2

/-- Reference recursion of the specification for the line generator: each
waypoint `i` is the linear interpolant at `i/60` between the start position
and the `+500`-along-X position, holds the fixed start orientation, and is
solved seeded with the previous waypoint's solution. -/
def lineSolutionsFrom (tm : ThreeModel F) (cfg : DHParameterConfig F)
    (startPos : Vec3 F) (startQuat : Quat F) :
    (Fin 6 → F) → List ℕ → List (Fin 6 → F)
  | _, [] => []
  | seed, i :: is =>
    let pos := Vec3.lerpV startPos
      ⟨startPos.x + 500, startPos.y, startPos.z⟩ ((i : F) / 60)
    let sol := inverseKinematics tm cfg (composeM pos startQuat) seed
    sol :: lineSolutionsFrom tm cfg startPos startQuat sol is

/-- The full specification-side line generator: the reference recursion run
over sample indices `0..60` from the current end-effector pose. -/
def generateLineSpec (tm : ThreeModel F) (cfg : DHParameterConfig F)
    (θ0 : Fin 6 → F) : List (Fin 6 → F) :=
  let startM := endOfChain (forwardKinematicsChain tm cfg θ0)
  lineSolutionsFrom tm cfg (Mat4.translationOf startM)
    (tm.quatOfEuler (tm.eulerOfQuat (tm.decomposeQuat startM))) θ0
    (List.range 61)

lemma lineFold_eq (tm : ThreeModel F) (cfg : DHParameterConfig F)
    (startPos : Vec3 F) (startQuat : Quat F) (l : List ℕ) :
    ∀ (seed : Fin 6 → F) (acc : List (Fin 6 → F)),
    (l.foldl
      (fun acc2 (i : ℕ) =>
        let pos := Vec3.lerpV startPos
          ⟨startPos.x + 500, startPos.y, startPos.z⟩ ((i : F) / 60)
        let mat := composeM pos startQuat
        let sol := inverseKinematics tm cfg mat acc2.1
        (sol, acc2.2 ++ [sol]))
      (seed, acc)).2 =
      acc ++ lineSolutionsFrom tm cfg startPos startQuat seed l := by
  induction l with
  | nil =>
    intro seed acc
    simp [lineSolutionsFrom]
  | cons i is ih =>
    intro seed acc
    simp only [List.foldl_cons, lineSolutionsFrom]
    rw [ih]
    simp

lemma lineSolutions_length (tm : ThreeModel F) (cfg : DHParameterConfig F)
    (startPos : Vec3 F) (startQuat : Quat F) (l : List ℕ) :
    ∀ seed, (lineSolutionsFrom tm cfg startPos startQuat seed l).length =
      l.length := by
  induction l with
  | nil => intro seed; rfl
  | cons i is ih =>
    intro seed
    simp only [lineSolutionsFrom, List.length_cons, ih]

/-- C7: the `line` generator produces exactly 61 waypoints, equal to the
reference recursion of the specification: linear interpolation between the
start position and the position `+500 mm` along the robot-frame X axis,
orientation held fixed at the start orientation, each sample solved by the
IK solver seeded with the previous sample's solution. -/
theorem claim_C7_line_generator {F : Type} [LinearOrderedField F]
    [FloorRing F] (tm : ThreeModel F) (cfg : DHParameterConfig F)
    (θ0 : Fin 6 → F) :
    generateTrajectoryPointsLine tm cfg θ0 = generateLineSpec tm cfg θ0 ∧
      (generateTrajectoryPointsLine tm cfg θ0).length = 61 := by
  have he : generateTrajectoryPointsLine tm cfg θ0 =
      generateLineSpec tm cfg θ0 := by
    unfold generateTrajectoryPointsLine generateLineSpec
    rw [lineFold_eq]
    simp
  refine ⟨he, ?_⟩
  rw [he]
  unfold generateLineSpec
  rw [lineSolutions_length]
  simp

end PathGenerators


/-! ### Parser service -/

/-- Whitespace characters matched by the regex class `\s` and by `trim()` on
the line-structured inputs (newlines are already consumed by the line
split). -/
def isWSChar (c : Char) : Bool :=
  c == ' ' || c == '\t' || c == '\r'

/-- Characters of the regex value class `[-\d.]`. -/
def isNumClassChar (c : Char) : Bool :=
  c.isDigit || c == '-' || c == '.'

/-- Attempt of the regex tail `\s*:=\s*([-\d.]+)` at a fixed position (the
text after a matched key character): the captured class run, or `none` when
the pattern fails here. -/
def matchKeyTail (rest : List Char) : Option (List Char) :=
  match rest.dropWhile isWSChar with
  | ':' :: '=' :: r2 =>
    let run := (r2.dropWhile isWSChar).takeWhile isNumClassChar
    if run.isEmpty then none else some run
  | _ => none

/-- Leftmost match of the case-insensitive regex `key\s*:=\s*([-\d.]+)` over
a line, for the single-character keys `x y z a b c`: scan for the key
character case-insensitively and try the tail at every occurrence. -/
def scanKey (key : Char) : List Char → Option (List Char)
  | [] => none
  | c :: rest =>
    if c.toLower == key then
      match matchKeyTail rest with
      | some run => some run
      | none => scanKey key rest
    else scanKey key rest

/-- Numeric value of a digit run. -/
def digitsVal (l : List Char) : ℕ :=
  l.foldl (fun acc c => 10 * acc + (c.toNat - 48)) 0

/-- Powers of ten, written with structural recursion so that concrete
parses reduce definitionally. -/
def pow10 : ℕ → F
  | 0 => 1
  | n + 1 => 10 * pow10 n

/-- JavaScript `parseFloat` restricted to captures of the class `[-\d.]+`:
an optional leading minus sign, an integer digit run, an optional dot and
fraction run, everything after that ignored; `none` models the `NaN` result
when no digit is found. -/
def parseFloat (cs : List Char) : Option F :=
  let sgn : F := if cs.headD ' ' == '-' then -1 else 1
  let cs1 := if cs.headD ' ' == '-' then cs.tail else cs
  let d1 := cs1.takeWhile Char.isDigit
  let r1 := cs1.dropWhile Char.isDigit
  let d2 := match r1 with
    | '.' :: r2 => r2.takeWhile Char.isDigit
    | _ => []
  if d1.isEmpty && d2.isEmpty then none
  else
    some (sgn * ((digitsVal d1 : F) + (digitsVal d2 : F) / pow10 d2.length))

/-- `ParserService.parseKeyValue`: `none` when the regex does not match the
line (the source's `null`), otherwise the `parseFloat` value of the capture
(whose inner `none` models a `NaN` number). -/
def parseKeyValue (line : List Char) (key : Char) : Option (Option F) :=
  (scanKey key line).map parseFloat

/-- `ParserService.parseLineToPose`: each key's value with the `?? 0`
fallback applied when the pattern did not match. -/
def parseLineToPose (line : List Char) : PoseData (Option F) :=
  ⟨(parseKeyValue line 'x').getD (some 0),
   (parseKeyValue line 'y').getD (some 0),
   (parseKeyValue line 'z').getD (some 0),
   (parseKeyValue line 'a').getD (some 0),
   (parseKeyValue line 'b').getD (some 0),
   (parseKeyValue line 'c').getD (some 0)⟩

/-- `RobotGlobalConfig` from the source. -/
structure RobotGlobalConfig (α : Type) where
  world : PoseData α
  tool : PoseData α
deriving DecidableEq

/-- The all-zero default pose of the parser service. -/
def defaultPose : PoseData (Option F) :=
  ⟨some 0, some 0, some 0, some 0, some 0, some 0⟩

/-- Splitting a character stream into lines at newline characters
(JavaScript `text.split('\n')`; the empty text yields one empty line). -/
def splitLines : List Char → List (List Char)
  | [] => [[]]
  | c :: r =>
    if c == '\n' then [] :: splitLines r
    else
      match splitLines r with
      | [] => [[c]]
      | l :: ls => (c :: l) :: ls

/-- `startsWith`: prefix test of a pattern on a character list. -/
def hasLead : List Char → List Char → Bool
  | [], _ => true
  | _ :: _, [] => false
  | p :: ps, c :: cs => p == c && hasLead ps cs

/-- JavaScript `trim()`. -/
def trimChars (l : List Char) : List Char :=
  ((l.dropWhile isWSChar).reverse.dropWhile isWSChar).reverse

/-- One line of `parseGlobalVars`: a line whose trimmed text starts with
`world1` replaces the whole world pose, else one starting with `tool1`
replaces the whole tool pose; every other line is ignored. -/
def pgvStep (cfg : RobotGlobalConfig (Option F)) (line : List Char) :
    RobotGlobalConfig (Option F) :=
  if hasLead ("world1".toList) (trimChars line) then
    { cfg with world := parseLineToPose line }
  else if hasLead ("tool1".toList) (trimChars line) then
    { cfg with tool := parseLineToPose line }
  else cfg

/-- `ParserService.parseGlobalVars`. -/
def parseGlobalVars (text : List Char) : RobotGlobalConfig (Option F) :=
  (splitLines text).foldl pgvStep ⟨defaultPose, defaultPose⟩

/-- `line.includes(pat)`: substring test. -/
def containsSub (pat : List Char) : List Char → Bool
  | [] => hasLead pat []
  | c :: r => hasLead pat (c :: r) || containsSub pat r

/-- The waypoint-line test of `parseTrajectory`: the line contains both
`CARTPOS` and `x :=` as literal substrings. -/
def isWaypointLine (line : List Char) : Bool :=
  containsSub ("CARTPOS".toList) line && containsSub ("x :=".toList) line

/-- Line loop of `parseTrajectory`: push a pose for every waypoint line, in
file order. -/
def parseTrajectoryGo : List (List Char) → List (PoseData (Option F))
  | [] => []
  | l :: ls =>
    if isWaypointLine l then parseLineToPose l :: parseTrajectoryGo ls
    else parseTrajectoryGo ls

/-- `ParserService.parseTrajectory`. -/
def parseTrajectory (text : List Char) : List (PoseData (Option F)) :=
  parseTrajectoryGo (splitLines text)

lemma parseKeyValue_eval (line : List Char) (key : Char) (run : List Char)
    (h : scanKey key line = some run) :
    (parseKeyValue line key : Option (Option F)) = some (parseFloat run) := by
  unfold parseKeyValue
  rw [h]
  rfl

lemma parseFloat_100 : (parseFloat ['1', '0', '0'] : Option ℚ) = some 100 := by
  show some ((1 : ℚ) * ((digitsVal ['1', '0', '0'] : ℚ) +
    (digitsVal [] : ℚ) / pow10 0)) = some 100
  rw [show digitsVal ['1', '0', '0'] = 100 from by decide,
    show digitsVal [] = 0 from rfl]
  norm_num [pow10]

lemma parseFloat_neg50 : (parseFloat ['-', '5', '0'] : Option ℚ) =
    some (-50) := by
  show some ((-1 : ℚ) * ((digitsVal ['5', '0'] : ℚ) +
    (digitsVal [] : ℚ) / pow10 0)) = some (-50)
  rw [show digitsVal ['5', '0'] = 50 from by decide,
    show digitsVal [] = 0 from rfl]
  norm_num [pow10]

lemma parseFloat_10 : (parseFloat ['1', '0'] : Option ℚ) = some 10 := by
  show some ((1 : ℚ) * ((digitsVal ['1', '0'] : ℚ) +
    (digitsVal [] : ℚ) / pow10 0)) = some 10
  rw [show digitsVal ['1', '0'] = 10 from by decide,
    show digitsVal [] = 0 from rfl]
  norm_num [pow10]

lemma parseFloat_20 : (parseFloat ['2', '0'] : Option ℚ) = some 20 := by
  show some ((1 : ℚ) * ((digitsVal ['2', '0'] : ℚ) +
    (digitsVal [] : ℚ) / pow10 0)) = some 20
  rw [show digitsVal ['2', '0'] = 20 from by decide,
    show digitsVal [] = 0 from rfl]
  norm_num [pow10]

lemma parseFloat_30 : (parseFloat ['3', '0'] : Option ℚ) = some 30 := by
  show some ((1 : ℚ) * ((digitsVal ['3', '0'] : ℚ) +
    (digitsVal [] : ℚ) / pow10 0)) = some 30
  rw [show digitsVal ['3', '0'] = 30 from by decide,
    show digitsVal [] = 0 from rfl]
  norm_num [pow10]

/-- C8: a key whose regex pattern does not match a line (the source's notion
of a missing or malformed key) parses to 0 rather than failing — the parse
is total; `parseGlobalVars ""` returns the all-zero configuration; and
`parseGlobalVars "world1 x := 100 y := -50"` yields world pose
`{x: 100, y: -50, z: 0, a: 0, b: 0, c: 0}` with the tool pose at default.
(A matched key whose captured value has no digit at all — e.g. `x := -` —
yields JavaScript `NaN`, modelled here as an inner `none`; such captures are
floating-point behaviour outside this claim's examples.) -/
theorem claim_C8_parser_defaults {F : Type} [LinearOrderedField F] :
    (∀ line : List Char,
      ((parseKeyValue line 'x' : Option (Option F)) = none →
        (parseLineToPose line : PoseData (Option F)).x = some 0) ∧
      ((parseKeyValue line 'y' : Option (Option F)) = none →
        (parseLineToPose line : PoseData (Option F)).y = some 0) ∧
      ((parseKeyValue line 'z' : Option (Option F)) = none →
        (parseLineToPose line : PoseData (Option F)).z = some 0) ∧
      ((parseKeyValue line 'a' : Option (Option F)) = none →
        (parseLineToPose line : PoseData (Option F)).a = some 0) ∧
      ((parseKeyValue line 'b' : Option (Option F)) = none →
        (parseLineToPose line : PoseData (Option F)).b = some 0) ∧
      ((parseKeyValue line 'c' : Option (Option F)) = none →
        (parseLineToPose line : PoseData (Option F)).c = some 0)) ∧
      (parseGlobalVars ("".toList) : RobotGlobalConfig (Option ℚ)) =
        ⟨defaultPose, defaultPose⟩ ∧
      (parseGlobalVars (("world1 x := 100 y := -50").toList) :
          RobotGlobalConfig (Option ℚ)) =
        ⟨⟨some 100, some (-50), some 0, some 0, some 0, some 0⟩,
          defaultPose⟩ := by
  refine ⟨?_, ?_, ?_⟩
  · intro line
    refine ⟨?_, ?_, ?_, ?_, ?_, ?_⟩ <;>
      (intro h
       show (parseKeyValue line _).getD (some 0) = some 0
       rw [h]
       rfl)
  · decide
  · have hgv : (parseGlobalVars (("world1 x := 100 y := -50").toList) :
        RobotGlobalConfig (Option ℚ)) =
        ⟨parseLineToPose (("world1 x := 100 y := -50").toList),
          defaultPose⟩ := rfl
    rw [hgv]
    have hx : (parseKeyValue (("world1 x := 100 y := -50").toList) 'x' :
        Option (Option ℚ)) = some (parseFloat ['1', '0', '0']) :=
      parseKeyValue_eval _ _ _ (by decide)
    have hy : (parseKeyValue (("world1 x := 100 y := -50").toList) 'y' :
        Option (Option ℚ)) = some (parseFloat ['-', '5', '0']) :=
      parseKeyValue_eval _ _ _ (by decide)
    rw [parseFloat_100] at hx
    rw [parseFloat_neg50] at hy
    have hz : (parseKeyValue (("world1 x := 100 y := -50").toList) 'z' :
        Option (Option ℚ)) = none := by decide
    have hA : (parseKeyValue (("world1 x := 100 y := -50").toList) 'a' :
        Option (Option ℚ)) = none := by decide
    have hB : (parseKeyValue (("world1 x := 100 y := -50").toList) 'b' :
        Option (Option ℚ)) = none := by decide
    have hC : (parseKeyValue (("world1 x := 100 y := -50").toList) 'c' :
        Option (Option ℚ)) = none := by decide
    congr 1
    unfold parseLineToPose
    rw [hx, hy, hz, hA, hB, hC]
    rfl

/-- C9: a line is captured by `parseTrajectory` exactly when it contains the
literal substrings `CARTPOS` and `x :=`; captured lines are parsed into
poses and appended in file order; the sample line yields waypoint
`{10, 20, 30, 0, 0, 0}`; lines lacking either substring are skipped. -/
theorem claim_C9_trajectory_capture {F : Type} [LinearOrderedField F] :
    (∀ text : List Char,
      (parseTrajectory text : List (PoseData (Option F))) =
        ((splitLines text).filter isWaypointLine).map parseLineToPose) ∧
      (parseTrajectory (("cp1 CARTPOS x := 10 y := 20 z := 30").toList) :
          List (PoseData (Option ℚ))) =
        [⟨some 10, some 20, some 30, some 0, some 0, some 0⟩] ∧
      (parseTrajectory (("cp1 x := 10").toList) :
          List (PoseData (Option ℚ))) = [] ∧
      (parseTrajectory (("cp1 CARTPOS").toList) :
          List (PoseData (Option ℚ))) = [] := by
  have hgo : ∀ (ls : List (List Char)),
      (parseTrajectoryGo ls : List (PoseData (Option F))) =
        (ls.filter isWaypointLine).map parseLineToPose := by
    intro ls
    induction ls with
    | nil => rfl
    | cons l ls ih =>
      by_cases h : isWaypointLine l
      · simp [parseTrajectoryGo, List.filter_cons, h, ih]
      · simp [parseTrajectoryGo, List.filter_cons, h, ih]
  refine ⟨fun text => hgo (splitLines text), ?_, ?_, ?_⟩
  · have h1 : (parseTrajectory
        (("cp1 CARTPOS x := 10 y := 20 z := 30").toList) :
        List (PoseData (Option ℚ))) =
        [parseLineToPose (("cp1 CARTPOS x := 10 y := 20 z := 30").toList)] :=
      rfl
    rw [h1]
    have hx : (parseKeyValue
        (("cp1 CARTPOS x := 10 y := 20 z := 30").toList) 'x' :
        Option (Option ℚ)) = some (parseFloat ['1', '0']) :=
      parseKeyValue_eval _ _ _ (by decide)
    have hy : (parseKeyValue
        (("cp1 CARTPOS x := 10 y := 20 z := 30").toList) 'y' :
        Option (Option ℚ)) = some (parseFloat ['2', '0']) :=
      parseKeyValue_eval _ _ _ (by decide)
    have hz : (parseKeyValue
        (("cp1 CARTPOS x := 10 y := 20 z := 30").toList) 'z' :
        Option (Option ℚ)) = some (parseFloat ['3', '0']) :=
      parseKeyValue_eval _ _ _ (by decide)
    rw [parseFloat_10] at hx
    rw [parseFloat_20] at hy
    rw [parseFloat_30] at hz
    have hA : (parseKeyValue
        (("cp1 CARTPOS x := 10 y := 20 z := 30").toList) 'a' :
        Option (Option ℚ)) = none := by decide
    have hB : (parseKeyValue
        (("cp1 CARTPOS x := 10 y := 20 z := 30").toList) 'b' :
        Option (Option ℚ)) = none := by decide
    have hC : (parseKeyValue
        (("cp1 CARTPOS x := 10 y := 20 z := 30").toList) 'c' :
        Option (Option ℚ)) = none := by decide
    congr 1
    unfold parseLineToPose
    rw [hx, hy, hz, hA, hB, hC]
    rfl
  · decide
  · decide


/-! ### Last-match semantics of parseGlobalVars -/

/-- A line whose trimmed text starts with `world1`. -/
def isWorldLine (l : List Char) : Bool :=
  hasLead ("world1".toList) (trimChars l)

/-- A line whose trimmed text starts with `tool1`. -/
def isToolLine (l : List Char) : Bool :=
  hasLead ("tool1".toList) (trimChars l)

lemma world_not_tool (s : List Char)
    (h : hasLead ("world1".toList) s = true) :
    hasLead ("tool1".toList) s = false := by
  rw [show ("world1".toList : List Char) = ['w', 'o', 'r', 'l', 'd', '1']
    from rfl] at h
  rw [show ("tool1".toList : List Char) = ['t', 'o', 'o', 'l', '1'] from rfl]
  cases s with
  | nil => simp [hasLead] at h
  | cons c cs =>
    simp only [hasLead, Bool.and_eq_true, beq_iff_eq] at h
    rw [← h.1]
    rfl

lemma tool_not_world (s : List Char)
    (h : hasLead ("tool1".toList) s = true) :
    hasLead ("world1".toList) s = false := by
  rw [show ("tool1".toList : List Char) = ['t', 'o', 'o', 'l', '1']
    from rfl] at h
  rw [show ("world1".toList : List Char) = ['w', 'o', 'r', 'l', 'd', '1']
    from rfl]
  cases s with
  | nil => simp [hasLead] at h
  | cons c cs =>
    simp only [hasLead, Bool.and_eq_true, beq_iff_eq] at h
    rw [← h.1]
    rfl

lemma pgvStep_world_line (cfg : RobotGlobalConfig (Option F))
    (l : List Char) (h : isWorldLine l = true) :
    pgvStep cfg l = { cfg with world := parseLineToPose l } := by
  unfold pgvStep
  rw [if_pos (show hasLead ("world1".toList) (trimChars l) = true from h)]

lemma pgvStep_tool_line (cfg : RobotGlobalConfig (Option F))
    (l : List Char) (h : isToolLine l = true) :
    pgvStep cfg l = { cfg with tool := parseLineToPose l } := by
  have hw : hasLead ("world1".toList) (trimChars l) = false :=
    tool_not_world (trimChars l)
      (show hasLead ("tool1".toList) (trimChars l) = true from h)
  unfold pgvStep
  rw [if_neg (by rw [hw]; simp),
    if_pos (show hasLead ("tool1".toList) (trimChars l) = true from h)]

lemma pgvStep_world_of_not (cfg : RobotGlobalConfig (Option F))
    (l : List Char) (hw : isWorldLine l = false) :
    (pgvStep cfg l).world = cfg.world := by
  unfold pgvStep
  rw [if_neg (by
    rw [show hasLead ("world1".toList) (trimChars l) = false from hw]
    simp)]
  split_ifs <;> rfl

lemma pgvStep_tool_of_not (cfg : RobotGlobalConfig (Option F))
    (l : List Char) (ht : isToolLine l = false) :
    (pgvStep cfg l).tool = cfg.tool := by
  unfold pgvStep
  split_ifs with h1 h2
  · rfl
  · exact absurd h2 (by
      rw [show hasLead ("tool1".toList) (trimChars l) = false from ht]
      simp)
  · rfl

lemma getLastD_of_ne {α : Type} (t : List α) (ht : t ≠ []) (a b : α) :
    t.getLastD a = t.getLastD b := by
  cases t with
  | nil => exact absurd rfl ht
  | cons c cs => rfl

lemma pgv_world_nil (ls : List (List Char)) :
    ∀ cfg : RobotGlobalConfig (Option F), ls.filter isWorldLine = [] →
      (ls.foldl pgvStep cfg).world = cfg.world := by
  induction ls with
  | nil => intro cfg _; rfl
  | cons l ls ih =>
    intro cfg h
    cases hw : isWorldLine l with
    | true => simp [List.filter_cons, hw] at h
    | false =>
      rw [List.foldl_cons, ih (pgvStep cfg l)
        (by simpa [List.filter_cons, hw] using h),
        pgvStep_world_of_not cfg l hw]

lemma pgv_tool_nil (ls : List (List Char)) :
    ∀ cfg : RobotGlobalConfig (Option F), ls.filter isToolLine = [] →
      (ls.foldl pgvStep cfg).tool = cfg.tool := by
  induction ls with
  | nil => intro cfg _; rfl
  | cons l ls ih =>
    intro cfg h
    cases ht : isToolLine l with
    | true => simp [List.filter_cons, ht] at h
    | false =>
      rw [List.foldl_cons, ih (pgvStep cfg l)
        (by simpa [List.filter_cons, ht] using h),
        pgvStep_tool_of_not cfg l ht]

lemma pgv_world_last (ls : List (List Char)) :
    ∀ cfg : RobotGlobalConfig (Option F), ls.filter isWorldLine ≠ [] →
      (ls.foldl pgvStep cfg).world =
        parseLineToPose ((ls.filter isWorldLine).getLastD []) := by
  induction ls with
  | nil => intro cfg h; exact absurd rfl h
  | cons l ls ih =>
    intro cfg h
    cases hw : isWorldLine l with
    | false =>
      have hfe : (l :: ls).filter isWorldLine = ls.filter isWorldLine := by
        simp [List.filter_cons, hw]
      have h2 : ls.filter isWorldLine ≠ [] := by
        rw [hfe] at h
        exact h
      rw [List.foldl_cons, ih (pgvStep cfg l) h2, hfe]
    | true =>
      have hfe : (l :: ls).filter isWorldLine =
          l :: ls.filter isWorldLine := by
        simp [List.filter_cons, hw]
      rw [List.foldl_cons, pgvStep_world_line cfg l hw]
      by_cases hrest : ls.filter isWorldLine = []
      · rw [pgv_world_nil ls _ hrest, hfe, hrest]
        rfl
      · rw [ih _ hrest, hfe, List.getLastD_cons]
        congr 1
        exact getLastD_of_ne _ hrest [] l

lemma pgv_tool_last (ls : List (List Char)) :
    ∀ cfg : RobotGlobalConfig (Option F), ls.filter isToolLine ≠ [] →
      (ls.foldl pgvStep cfg).tool =
        parseLineToPose ((ls.filter isToolLine).getLastD []) := by
  induction ls with
  | nil => intro cfg h; exact absurd rfl h
  | cons l ls ih =>
    intro cfg h
    cases ht : isToolLine l with
    | false =>
      have hfe : (l :: ls).filter isToolLine = ls.filter isToolLine := by
        simp [List.filter_cons, ht]
      have h2 : ls.filter isToolLine ≠ [] := by
        rw [hfe] at h
        exact h
      rw [List.foldl_cons, ih (pgvStep cfg l) h2, hfe]
    | true =>
      have hfe : (l :: ls).filter isToolLine = l :: ls.filter isToolLine := by
        simp [List.filter_cons, ht]
      rw [List.foldl_cons, pgvStep_tool_line cfg l ht]
      by_cases hrest : ls.filter isToolLine = []
      · rw [pgv_tool_nil ls _ hrest, hfe, hrest]
        rfl
      · rw [ih _ hrest, hfe, List.getLastD_cons]
        congr 1
        exact getLastD_of_ne _ hrest [] l

/-- C10: when the input has several lines whose trimmed text starts with
`world1` (respectively `tool1`), `parseGlobalVars` returns as the world
(tool) pose exactly the pose parsed from the last such line — each matching
line fully replaces the stored pose, so a key set on an earlier matching
line but absent on the last one comes back 0 (illustrated concretely by the
last conjunct: `z` was 5 on the first world line and is 0 after the
second). -/
theorem claim_C10_last_match_wins {F : Type} [LinearOrderedField F] :
    (∀ text : List Char, (splitLines text).filter isWorldLine ≠ [] →
      (parseGlobalVars text : RobotGlobalConfig (Option F)).world =
        parseLineToPose
          (((splitLines text).filter isWorldLine).getLastD [])) ∧
      (∀ text : List Char, (splitLines text).filter isToolLine ≠ [] →
        (parseGlobalVars text : RobotGlobalConfig (Option F)).tool =
          parseLineToPose
            (((splitLines text).filter isToolLine).getLastD [])) ∧
      (parseGlobalVars (("world1 z := 5\nworld1 x := 1").toList) :
          RobotGlobalConfig (Option ℚ)).world.z = some 0 := by
  refine ⟨?_, ?_, ?_⟩
  · intro text h
    exact pgv_world_last (splitLines text) ⟨defaultPose, defaultPose⟩ h
  · intro text h
    exact pgv_tool_last (splitLines text) ⟨defaultPose, defaultPose⟩ h
  · decide

/-- Witness for C10 at a single-world-line input over ℚ, discharging the
nonemptiness hypothesis by evaluation. -/
theorem claim_C10_last_match_wins_witness :
    (parseGlobalVars (("world1 x := 1").toList) :
        RobotGlobalConfig (Option ℚ)).world =
      parseLineToPose
        (((splitLines (("world1 x := 1").toList)).filter
          isWorldLine).getLastD []) :=
  (@claim_C10_last_match_wins ℚ _).1 (("world1 x := 1").toList) (by decide)

/-- Witness for C8: key `z` is absent from the line `world1 x := 1`, and the
parsed pose's `z` field defaults to 0 by the theorem. -/
theorem claim_C8_parser_defaults_witness :
    (parseKeyValue (("world1 x := 1").toList) 'z' : Option (Option ℚ)) =
        none ∧
      (parseLineToPose (("world1 x := 1").toList) :
        PoseData (Option ℚ)).z = some 0 :=
  ⟨by decide,
    ((@claim_C8_parser_defaults ℚ _).1 (("world1 x := 1").toList)).2.2.1
      (by decide)⟩

end Robot
